import Mathlib

/-!
Verification of the AIMP radio-automation assistant's priority-playlist
scheduling and blocking logic, shallowly embedded from the Python sources
(`modules/block_manager.py`, `modules/schedule_manager.py`,
`modules/request_manager.py`).

Conventions of the embedding:

* Python strings are Lean `String`s; Python's `<=` on strings (code-point
  lexicographic order) is embedded explicitly as `pyLe`.
* `datetime` values are embedded at the granularity the code observes:
  wall-clock instants become a `DateTime` of day index plus second of day,
  and `strftime("%H:%M")` output becomes `timeStr` applied to the hour and
  minute of the instant (always zero-padded, as `strftime` guarantees).
* Effects on collaborators (the AIMP controller, the playlist manager, the
  `schedule` library's job registry) are made explicit: functions return
  the list of collaborator calls they issue, and the job registry is an
  explicit list of `Job` values threaded through.
* Fallible operations return `Except`; a Python `raise` becomes an
  `Except.error` and a caught-and-swallowed exception becomes the value the
  handler returns.
-/

namespace AIMP

/-- Python string comparison `s1 <= s2`: lexicographic on code points.
Embeds the chained comparison used by `BlockManager.is_blocked`. -/
def pyLe : List Char → List Char → Bool
  | [], _ => true
  | _ :: _, [] => false
  | a :: as, b :: bs =>
    if a.toNat < b.toNat then true
    else if b.toNat < a.toNat then false
    else pyLe as bs

/-- Python `s1 <= s2` on whole strings. -/
def strLe (a b : String) : Bool := pyLe a.data b.data

/-- The string `now.strftime("%H:%M")` for an instant whose hour is `h` and
minute is `m`: both fields zero-padded to two decimal digits, separated by a
colon, as `strftime` guarantees for `%H` and `%M`. -/
def timeStr (h m : Nat) : String :=
  ⟨[Nat.digitChar (h / 10 % 10), Nat.digitChar (h % 10), ':',
    Nat.digitChar (m / 10 % 10), Nat.digitChar (m % 10)]⟩

/-- One record of `blocks.json`: a date and a closed time interval, all three
fields stored as strings exactly as the Python code stores them. -/
structure Block where
  date : String
  start_time : String
  end_time : String
deriving DecidableEq, Repr

/-- One block's test inside `BlockManager.is_blocked`:
`block["date"] == current_date and block["start_time"] <= current_time <= block["end_time"]`,
where `ct` is the already-formatted current time string. -/
def blockMatches (today ct : String) (b : Block) : Bool :=
  b.date == today && strLe b.start_time ct && strLe ct b.end_time

/-- Embedding of `BlockManager.is_blocked`, given the stored block list,
today's formatted date string, and the current hour and minute: returns
`True` on the first block whose date string equals today's and whose
interval (compared as strings) contains the formatted current time. -/
def is_blocked (blocks : List Block) (today : String) (h m : Nat) : Bool :=
  blocks.any (blockMatches today (timeStr h m))

/-- Whether `c` is an ASCII decimal digit (as `strptime` classifies field
characters). -/
def isDigitChar (c : Char) : Bool := 48 ≤ c.toNat && c.toNat ≤ 57

/-- Numeric value of an ASCII digit. -/
def digitVal (c : Char) : Nat := c.toNat - 48

/-- Greedily take one or two leading digits, as `strptime`'s `%H` and `%M`
directives do, returning the parsed value and the rest of the input. -/
def takeDigits2 : List Char → Option (Nat × List Char)
  | [] => none
  | c :: rest =>
    if isDigitChar c then
      match rest with
      | c2 :: rest2 =>
        if isDigitChar c2 then some (10 * digitVal c + digitVal c2, rest2)
        else some (digitVal c, rest)
      | [] => some (digitVal c, [])
    else none

/-- `datetime.strptime(s, "%H:%M")` as a partial function to (hour, minute):
one or two digits, a literal colon, one or two digits, end of input, with
hour below 24 and minute below 60. -/
def parseHM (s : String) : Option (Nat × Nat) :=
  match takeDigits2 s.data with
  | some (h, ':' :: rest) =>
    match takeDigits2 rest with
    | some (m, []) => if h < 24 && m < 60 then some (h, m) else none
    | _ => none
  | _ => none

/-- Two-character hour field as `schedule`'s `Job.at()` accepts it for a
daily job: the regex piece `[0-2]\\d` followed by the library's
`0 <= int(hour) <= 23` range check. -/
def hourField (c1 c2 : Char) : Bool :=
  48 ≤ c1.toNat && c1.toNat ≤ 50 && isDigitChar c2 && 10 * digitVal c1 + digitVal c2 ≤ 23

/-- Two-character minute (or second) field of `Job.at()`'s daily-job regex:
the piece `[0-5]\\d`. -/
def minuteField (c1 c2 : Char) : Bool :=
  48 ≤ c1.toNat && c1.toNat ≤ 53 && isDigitChar c2

/-- Validation that `schedule`'s `Job.at(time_str)` applies to a daily job
(every release this code can run against): the time string must match
`^[0-2]\\d:[0-5]\\d(:[0-5]\\d)?$` and its hour must be at most 23,
otherwise `at()` raises `ScheduleValueError`. In particular a
`strptime`-parseable but non-zero-padded string such as `"7:05"` is
rejected. -/
def atDailyAccepts (s : String) : Bool :=
  match s.data with
  | [h1, h2, ':', m1, m2] => hourField h1 h2 && minuteField m1 m2
  | [h1, h2, ':', m1, m2, ':', s1, s2] =>
    hourField h1 h2 && minuteField m1 m2 && minuteField s1 s2
  | _ => false

/-- Chronological order on (hour, minute) pairs. -/
def timePairLe (a b : Nat × Nat) : Bool := a.1 < b.1 || (a.1 == b.1 && a.2 ≤ b.2)

/-- Specification-side predicate: one block is "active" at the current instant when
its date equals the current date and the current time-of-day lies in the
closed interval `[start_time, end_time]`, the interval endpoints being read
as times of day (`strptime`-style). -/
def blockActiveAt (today : String) (h m : Nat) (b : Block) : Bool :=
  b.date == today &&
    match parseHM b.start_time, parseHM b.end_time with
    | some s, some e => timePairLe s (h, m) && timePairLe (h, m) e
    | _, _ => false

/-- Specification-side predicate: some stored block is active at the current
instant. This is the predicate the specification asserts `is_blocked`
computes. -/
def blockActiveSpec (blocks : List Block) (today : String) (h m : Nat) : Bool :=
  blocks.any (blockActiveAt today h m)

/-- A stored time string is canonically formatted: zero-padded `HH:MM` with a
valid hour and minute. -/
def canonicalHM (s : String) : Prop := ∃ h m, h < 24 ∧ m < 60 ∧ s = timeStr h m

/-- Wall-clock instant at the granularity the scheduler code observes: a day
index and a second within that day. Python `datetime` comparison is
lexicographic on the components; an instant parsed from a
`"%Y-%m-%d %H:%M"` string lands on a whole minute. -/
structure DateTime where
  day : Nat
  sec : Nat
deriving DecidableEq, Repr

/-- Python `<` on `datetime` values. -/
def dtLt (a b : DateTime) : Bool := a.day < b.day || (a.day == b.day && a.sec < b.sec)

/-- Calls the scheduler issues to its collaborators (the `schedule` job
registry, the playlist manager and the AIMP controller), recorded as an
explicit effect trace. -/
inductive Effect
  | cancelJob (jobId : Nat)
  | updatePlaylist
  | playSong
deriving DecidableEq, Repr

/-- Commands sent to the AIMP player process. -/
inductive PlayerCmd
  | play
  | pause
  | skip
deriving DecidableEq, Repr

/-- Embedding of `ScheduleManager._run_if_not_blocked`'s wrapper around a
recurring `task`: the task body runs only when no priority playlist is
playing, `is_blocked()` is false, and `datetime.today().weekday() < 5`; on
any failed guard the wrapper only logs and returns `None`. The wrapper is a
total function: a skipped invocation returns normally, it never raises. -/
def run_if_not_blocked {α : Type} (task : Unit → α)
    (is_priority_playing blocked : Bool) (weekday : Nat) : Option α :=
  if is_priority_playing then none
  else if !blocked then
    if weekday < 5 then some (task ()) else none
  else none

/-- One entry of `ScheduleManager.priority_tasks`: the trigger job handle and
the data stored with it. -/
structure TaskRecord where
  jobId : Nat
  playlist_name : String
  play_datetime : DateTime
  directory : String
  duration : Nat
deriving DecidableEq, Repr

/-- Mutable state of a `ScheduleManager` instance: the pending-task map (a
Python dict in insertion order, embedded as an association list with unique
keys), the priority-playback flags, and a counter supplying fresh job
handles for `schedule.every().day.at(...).do(...)`. -/
structure SMState where
  priority_tasks : List (String × TaskRecord)
  is_priority_playing : Bool
  current_priority_task : Option String
  priority_end_time : Option DateTime
  is_loaded : Bool
  next_job_id : Nat
deriving DecidableEq, Repr

/-- State of a freshly constructed `ScheduleManager`. -/
def initState : SMState := ⟨[], false, none, none, false, 0⟩

/-- The deterministically derived task id
`f"priority_{directory}_{play_date}_{play_time}"`. -/
def task_id_of (directory play_date play_time : String) : String :=
  "priority_" ++ directory ++ "_" ++ play_date ++ "_" ++ play_time

/-- Embedding of `ScheduleManager.add_priority_playlist`. `now` is
`datetime.now()` at the call and `play_datetime` the instant `strptime`
parses from `play_date play_time`; `playlist_name` and `duration` stand for
the values the playlist-manager collaborator returns
(`create_directory_playlist` and the summed `_get_song_duration`s). The
result pairs the returned task id (or the raised, logged and re-raised
error) with the updated state. After the two validations the code registers
the trigger with `schedule.every().day.at(play_time)`, and `at()` raises
`ScheduleValueError` when `play_time` fails the daily-job time validation
(`atDailyAccepts`); that raise, like the two explicit ones, happens before
the task is inserted, so on every error path the manager state is returned
unchanged. -/
def add_priority_playlist (s : SMState) (now play_datetime : DateTime)
    (directory play_date play_time playlist_name : String) (duration : Nat) :
    Except String String × SMState :=
  if dtLt play_datetime now then
    (Except.error "Date and time must be in the future", s)
  else
    let task_id := task_id_of directory play_date play_time
    if (s.priority_tasks.lookup task_id).isSome then
      (Except.error ("A task with ID " ++ task_id ++ " already exists"), s)
    else if !atDailyAccepts play_time then
      (Except.error "Invalid time format for a daily job (valid format is HH:MM(:SS))", s)
    else
      (Except.ok task_id,
        { s with
            priority_tasks := s.priority_tasks ++
              [(task_id, ⟨s.next_job_id, playlist_name, play_datetime, directory, duration⟩)],
            next_job_id := s.next_job_id + 1 })

/-- One row of the snapshot `ScheduleManager.get_priority_tasks` returns
(the `play_datetime` field is reported there `strftime`-formatted; the
instant itself is carried here). -/
structure TaskView where
  task_id : String
  directory : String
  play_datetime : DateTime
  playlist_name : String
deriving DecidableEq, Repr

/-- Embedding of `ScheduleManager.get_priority_tasks`: a read-only snapshot
of the pending-task map. -/
def get_priority_tasks (s : SMState) : List TaskView :=
  s.priority_tasks.map fun p => ⟨p.1, p.2.directory, p.2.play_datetime, p.2.playlist_name⟩

/-- Embedding of `ScheduleManager._cleanup_priority_task`: when `task_id` is
pending, cancel its trigger job, delete it from the map, reset the three
priority flags, refresh the ordinary playlist and resume playback; when it
is not pending, do nothing at all. The `is_loaded` flag is not touched here
(its reset lives in the monitor callback of `_schedule_playlist_check`,
after this function returns). -/
def cleanup_priority_task (s : SMState) (task_id : String) : SMState × List Effect :=
  match s.priority_tasks.lookup task_id with
  | some task =>
      ({ s with
          priority_tasks := s.priority_tasks.filter fun p => p.1 != task_id,
          is_priority_playing := false,
          current_priority_task := none,
          priority_end_time := none },
        [Effect.cancelJob task.jobId, Effect.updatePlaylist, Effect.playSong])
  | none => (s, [])

/-- Kind of a job registered with the `schedule` library, as far as the
block machinery distinguishes them. -/
inductive JobKind
  | startBlock
  | endBlock
  | other (id : Nat)
deriving DecidableEq, Repr

/-- One job in the `schedule` registry: its tag set (here at most the tag
`"block"`), the `at(...)` time string it fires at, and what it runs. -/
structure Job where
  tag : Option String
  at_time : String
  kind : JobKind
deriving DecidableEq, Repr

/-- Embedding of `ScheduleManager._start_block_period`: pause playback, but
only if the player is currently playing. -/
def start_block_period (is_playing : Bool) : List PlayerCmd :=
  if is_playing then [PlayerCmd.pause] else []

/-- Embedding of `ScheduleManager._end_block_period`: resume playback,
unless a priority playlist currently holds playback authority. -/
def end_block_period (is_priority_playing : Bool) : List PlayerCmd :=
  if !is_priority_playing then [PlayerCmd.play] else []

/-- Embedding of `ScheduleManager._add_block_to_schedule` for a block of
today's date (both call sites pass only such blocks, so the parsed
`start`/`end` datetimes share the current day and datetime comparison
reduces to second-of-day comparison; `now_sec` is the current second of
today). Both time fields are parsed first — an invalid one raises inside
the function's `try`, so nothing is registered. Then a start job is
attempted only when the start instant is still strictly in the future, and
an end job only when the end instant is; each attempt calls
`schedule.every().day.at(time string)`, which raises `ScheduleValueError`
for a string failing the daily-job validation (`atDailyAccepts`) — the
exception is caught by the surrounding `try`, aborting the remainder, so an
invalid future start time registers nothing at all and an invalid future
end time leaves only the (possibly registered) start job. Each registered
job is tagged `"block"` and made one-off by `.until(target + 1 minute)`. -/
def add_block_to_schedule (now_sec : Nat) (b : Block) : List Job :=
  match parseHM b.start_time, parseHM b.end_time with
  | some (hs, ms), some (he, me) =>
    if now_sec < 60 * (60 * hs + ms) then
      if atDailyAccepts b.start_time then
        ⟨some "block", b.start_time, JobKind.startBlock⟩ ::
          (if now_sec < 60 * (60 * he + me) then
            if atDailyAccepts b.end_time then [⟨some "block", b.end_time, JobKind.endBlock⟩]
            else []
          else [])
      else []
    else if now_sec < 60 * (60 * he + me) then
      if atDailyAccepts b.end_time then [⟨some "block", b.end_time, JobKind.endBlock⟩]
      else []
    else []
  | _, _ => []

/-- Embedding of `ScheduleManager._schedule_daily_blocks` (run at process
start from `setup_schedules` and by the daily 00:01 job): clear every job
tagged `"block"` from the registry, then register jobs for each stored
block whose date string equals today's. -/
def schedule_daily_blocks (today : String) (now_sec : Nat) (blocks : List Block)
    (jobs : List Job) : List Job :=
  (jobs.filter fun j => j.tag != some "block") ++
    ((blocks.filter fun b => b.date == today).flatMap (add_block_to_schedule now_sec))

/-- An HTTP response of the Flask control surface: status code and body
summary. -/
structure HttpResponse where
  status : Nat
  body : String
deriving DecidableEq, Repr

/-- Embedding of `CommandServer._handle_command`: dispatch a known command to
the AIMP controller; an unknown command only logs a warning and performs
nothing (it does not raise). -/
def handle_command_dispatch (command : String) : List PlayerCmd :=
  if command = "play" then [PlayerCmd.play]
  else if command = "pause" then [PlayerCmd.pause]
  else if command = "next" then [PlayerCmd.skip]
  else []

/-- Embedding of `CommandServer.handle_command` (`POST /command`): `toDO` is
`data.get('ToDO')` (`none` when the field is absent) and `command_handler`
the configured list, `["play", "pause", "next"]` after `set_context`. The
guard is `if command and self.command_handler:` — Python truthiness of the
command string and of the list, not a membership test — so any non-empty
command string reaches the dispatcher and yields the success response. -/
def handle_command (toDO : Option String) (command_handler : List String) :
    HttpResponse × List PlayerCmd :=
  match toDO with
  | some command =>
    if command != "" && !command_handler.isEmpty then
      (⟨200, "success"⟩, handle_command_dispatch command)
    else (⟨400, "Invalid command"⟩, [])
  | none => (⟨400, "Invalid command"⟩, [])

/-- The persisted `blocks.json` document. -/
structure BlocksDoc where
  blocks : List Block
deriving DecidableEq, Repr

/-- Embedding of `BlockManager._read_blocks`: `r` is the outcome of opening
and JSON-decoding `blocks.json`; every failure (missing file, unreadable
file, invalid JSON) is caught, logged, and replaced by the fallback document
`{"blocks": []}` — no exception propagates to the caller. -/
def read_blocks (r : Except String BlocksDoc) : BlocksDoc :=
  match r with
  | Except.ok d => d
  | Except.error _ => ⟨[]⟩

/-- Embedding of `BlockManager.get_blocks` over the read outcome. -/
def get_blocks (r : Except String BlocksDoc) : List Block := (read_blocks r).blocks

/-- Embedding of `BlockManager.is_blocked` composed with the file read it
performs through `get_blocks`. -/
def is_blocked_of_read (r : Except String BlocksDoc) (today : String) (h m : Nat) : Bool :=
  is_blocked (get_blocks r) today h m

/-- Embedding of `CommandServer.list_blocks` (`GET /block/list`): an empty
stored list is falsy in Python, so it takes the 400 error branch; a
non-empty list is returned as the JSON body. -/
def list_blocks (blocks : List Block) : Except Nat (List Block) :=
  if blocks.isEmpty then Except.error 400 else Except.ok blocks

deriving instance DecidableEq for Except

/-- Sample manager state with one pending priority task `"t1"` whose
single-flight lock `is_loaded` is set, as after that task's activation. -/
def sampleLoadedState : SMState :=
  ⟨[("t1", ⟨7, "pl", ⟨0, 0⟩, "d", 90⟩)], true, some "t1", some ⟨0, 90⟩, true, 8⟩

/-- Code point of the padded decimal digits produced by `timeStr`. -/
theorem digitChar_toNat (d : Nat) (hd : d < 10) : (Nat.digitChar d).toNat = 48 + d := by
  interval_cases d <;> rfl

/-- Character list underlying a formatted `HH:MM` string. -/
theorem timeStr_data (h m : Nat) :
    (timeStr h m).data = [Nat.digitChar (h / 10 % 10), Nat.digitChar (h % 10), ':',
      Nat.digitChar (m / 10 % 10), Nat.digitChar (m % 10)] := rfl

/-- Unfolding equation for `pyLe` on two nonempty lists. -/
theorem pyLe_cons (a b : Char) (as bs : List Char) :
    pyLe (a :: as) (b :: bs) =
      if a.toNat < b.toNat then true
      else if b.toNat < a.toNat then false
      else pyLe as bs := rfl

/-- Unfolding equation for `pyLe` on two empty lists. -/
theorem pyLe_nil : pyLe [] [] = true := rfl

set_option maxHeartbeats 2000000 in
/-- On canonically formatted `HH:MM` strings, Python's lexicographic string
order coincides with chronological order of the (hour, minute) pairs. -/
theorem strLe_timeStr (h1 m1 h2 m2 : Nat)
    (hh1 : h1 < 100) (hm1 : m1 < 100) (hh2 : h2 < 100) (hm2 : m2 < 100) :
    strLe (timeStr h1 m1) (timeStr h2 m2) = true ↔
      (h1 < h2 ∨ (h1 = h2 ∧ m1 ≤ m2)) := by
  have d1 := digitChar_toNat (h1 / 10 % 10) (by omega)
  have d2 := digitChar_toNat (h1 % 10) (by omega)
  have d5 := digitChar_toNat (h2 / 10 % 10) (by omega)
  have d6 := digitChar_toNat (h2 % 10) (by omega)
  have d3 := digitChar_toNat (m1 / 10 % 10) (by omega)
  have d4 := digitChar_toNat (m1 % 10) (by omega)
  have d7 := digitChar_toNat (m2 / 10 % 10) (by omega)
  have d8 := digitChar_toNat (m2 % 10) (by omega)
  rw [strLe, timeStr_data, timeStr_data, pyLe_cons, pyLe_cons, pyLe_cons, pyLe_cons, pyLe_cons,
    pyLe_nil, d1, d2, d3, d4, d5, d6, d7, d8]
  split_ifs <;>
    first
      | exact iff_of_true (by trivial) (by omega)
      | exact iff_of_false (by simp) (by omega)

/-- Chronological order on (hour, minute) pairs, spelled out. -/
theorem timePairLe_eq (h1 m1 h2 m2 : Nat) :
    timePairLe (h1, m1) (h2, m2) = true ↔ (h1 < h2 ∨ (h1 = h2 ∧ m1 ≤ m2)) := by
  simp [timePairLe]

/-- Python string order on canonically formatted times equals `timePairLe`. -/
theorem strLe_eq_timePairLe (h1 m1 h2 m2 : Nat)
    (hh1 : h1 < 100) (hm1 : m1 < 100) (hh2 : h2 < 100) (hm2 : m2 < 100) :
    strLe (timeStr h1 m1) (timeStr h2 m2) = timePairLe (h1, m1) (h2, m2) := by
  have ha := strLe_timeStr h1 m1 h2 m2 hh1 hm1 hh2 hm2
  have hb := timePairLe_eq h1 m1 h2 m2
  cases hx : strLe (timeStr h1 m1) (timeStr h2 m2) <;>
    cases hy : timePairLe (h1, m1) (h2, m2) <;> simp_all
  omega

/-- Parsing a canonically formatted time string recovers its components. -/
theorem parseHM_timeStr : ∀ h, h < 24 → ∀ m, m < 60 → parseHM (timeStr h m) = some (h, m) := by
  decide

/-- On a block with canonically formatted times, the code's string-comparison
test agrees with the specification's time-interval test. -/
theorem blockMatches_eq_activeAt (today : String) (h m : Nat) (b : Block)
    (hh : h < 24) (hm : m < 60)
    (hc1 : canonicalHM b.start_time) (hc2 : canonicalHM b.end_time) :
    blockMatches today (timeStr h m) b = blockActiveAt today h m b := by
  obtain ⟨hs, ms, hhs, hms, hes⟩ := hc1
  obtain ⟨he, me, hhe, hme, hee⟩ := hc2
  rw [blockMatches, blockActiveAt, hes, hee,
    parseHM_timeStr hs hhs ms hms, parseHM_timeStr he hhe me hme,
    strLe_eq_timePairLe hs ms h m (by omega) (by omega) (by omega) (by omega),
    strLe_eq_timePairLe h m he me (by omega) (by omega) (by omega) (by omega)]
  simp [Bool.and_assoc]

/-- C1 (counterexample). The claim fails as stated: for the stored block
`{date: "2026-10-12", start_time: "7:05", end_time: "9:00"}` — whose time
fields are accepted by the `strptime` validation in `BlockManager.add_block`
— at 08:00 on 2026-10-12 the current time-of-day lies in the closed interval
`[7:05, 9:00]` of a block whose date is today, yet `is_blocked` returns
`False`, because the code compares the stored string `"7:05"` with the
formatted current time `"08:00"` lexicographically and `'7' > '0'`. -/
theorem is_blocked_misses_unpadded_time :
    parseHM "7:05" = some (7, 5) ∧
    blockActiveSpec [⟨"2026-10-12", "7:05", "9:00"⟩] "2026-10-12" 8 0 = true ∧
    is_blocked [⟨"2026-10-12", "7:05", "9:00"⟩] "2026-10-12" 8 0 = false := by
  decide

/-- C1 (amended). For every stored list of blocks all of whose time fields
are canonically formatted zero-padded `HH:MM` strings, and every current
instant, `is_blocked` returns true if and only if some stored block's date
equals the current date and the current time-of-day lies in the closed
interval `[start_time, end_time]` of that block; a block whose date is not
today never makes `is_blocked` true. (Without the zero-padding restriction
the equivalence fails, see the counterexample.) -/
theorem is_blocked_iff_block_active (blocks : List Block) (today : String) (h m : Nat)
    (hh : h < 24) (hm : m < 60)
    (hc : ∀ b ∈ blocks, canonicalHM b.start_time ∧ canonicalHM b.end_time) :
    is_blocked blocks today h m = blockActiveSpec blocks today h m := by
  induction blocks with
  | nil => rfl
  | cons b bs ih =>
    have hb := hc b (List.mem_cons_self b bs)
    have ihs := ih fun x hx => hc x (List.mem_cons_of_mem b hx)
    rw [is_blocked, blockActiveSpec, List.any_cons, List.any_cons,
      blockMatches_eq_activeAt today h m b hh hm hb.1 hb.2]
    rw [is_blocked, blockActiveSpec] at ihs
    rw [ihs]

/-- C1 (witness). The amended equivalence, instantiated at a concrete
canonically formatted block list and instant. -/
theorem is_blocked_iff_block_active_inst :
    is_blocked [⟨"2026-10-12", "08:00", "09:30"⟩] "2026-10-12" 8 15
      = blockActiveSpec [⟨"2026-10-12", "08:00", "09:30"⟩] "2026-10-12" 8 15 :=
  is_blocked_iff_block_active _ _ 8 15 (by omega) (by omega) (by
    intro b hb
    rw [List.mem_singleton] at hb
    subst hb
    exact ⟨⟨8, 0, by omega, by omega, by decide⟩, ⟨9, 30, by omega, by omega, by decide⟩⟩)

/-- Looking up a key in an association list from which every pair with that
key has been filtered out yields nothing. -/
theorem lookup_filter_self {β : Type} (l : List (String × β)) (k : String) :
    (l.filter fun p => p.1 != k).lookup k = none := by
  induction l with
  | nil => rfl
  | cons p l ih =>
    by_cases hp : p.1 = k
    · simp [List.filter_cons, hp, ih]
    · have hk : (k == p.1) = false := beq_eq_false_iff_ne.mpr (Ne.symm hp)
      simp [List.filter_cons, hp, List.lookup, hk, ih]

/-- C2. For every wrapped recurring action, the underlying task executes
(the wrapper returns its result) if and only if no priority playlist is
playing AND `is_blocked()` is false AND the weekday is Monday–Friday
(`weekday < 5`); when any of the three guards fails the wrapper returns
`none` — a silent skip, with no exception (the wrapper is total). -/
theorem run_if_not_blocked_iff_guards {α : Type} (task : Unit → α)
    (p b : Bool) (w : Nat) :
    (run_if_not_blocked task p b w = some (task ()) ↔ (p = false ∧ b = false ∧ w < 5))
    ∧ (run_if_not_blocked task p b w = none ↔ ¬(p = false ∧ b = false ∧ w < 5)) := by
  by_cases hw : w < 5 <;> cases p <;> cases b <;> simp [run_if_not_blocked, hw]

/-- C3 (amended). `add_priority_playlist` raises `ValueError` exactly for a
play datetime strictly earlier than the current time — a play datetime equal
to `now` is accepted, which is where the claim as stated fails — and it also
raises when `play_time` fails the scheduler's daily `at()` time validation
(`strptime` accepts e.g. `"7:05"` but `at()` rejects it, before the task is
inserted); for every play datetime `≥ now` with a fresh task id and an
`at()`-accepted `play_time` it succeeds, returns the derived task id, and
that id appears in the `get_priority_tasks` snapshot of the new state. -/
theorem add_priority_validation (s : SMState) (now play_datetime : DateTime)
    (directory play_date play_time pl : String) (dur : Nat) :
    (dtLt play_datetime now = true →
      ∃ msg, add_priority_playlist s now play_datetime directory play_date play_time pl dur
        = (Except.error msg, s))
    ∧ (dtLt play_datetime now = false →
      s.priority_tasks.lookup (task_id_of directory play_date play_time) = none →
      atDailyAccepts play_time = false →
      ∃ msg, add_priority_playlist s now play_datetime directory play_date play_time pl dur
        = (Except.error msg, s))
    ∧ (dtLt play_datetime now = false →
      s.priority_tasks.lookup (task_id_of directory play_date play_time) = none →
      atDailyAccepts play_time = true →
      ∃ s', add_priority_playlist s now play_datetime directory play_date play_time pl dur
          = (Except.ok (task_id_of directory play_date play_time), s')
        ∧ task_id_of directory play_date play_time
            ∈ (get_priority_tasks s').map TaskView.task_id) := by
  refine ⟨?_, ?_, ?_⟩
  · intro hlt
    refine ⟨"Date and time must be in the future", ?_⟩
    simp [add_priority_playlist, hlt]
  · intro hlt hfresh hat
    refine ⟨"Invalid time format for a daily job (valid format is HH:MM(:SS))", ?_⟩
    simp [add_priority_playlist, hlt, hfresh, hat]
  · intro hlt hfresh hat
    refine ⟨{ s with
        priority_tasks := s.priority_tasks ++
          [(task_id_of directory play_date play_time,
            ⟨s.next_job_id, pl, play_datetime, directory, dur⟩)],
        next_job_id := s.next_job_id + 1 }, ?_, ?_⟩
    · simp [add_priority_playlist, hlt, hfresh, hat]
    · simp [get_priority_tasks]

/-- C4. Whenever the deterministically derived task id of
`(directory, play_date, play_time)` is already pending — in particular on a
second call with the same arguments — `add_priority_playlist` raises an
error and returns the state completely unchanged: a collision is an error,
never an overwrite. -/
theorem add_priority_collision_error (s : SMState) (now play_datetime : DateTime)
    (directory play_date play_time pl : String) (dur : Nat)
    (hdup : (s.priority_tasks.lookup (task_id_of directory play_date play_time)).isSome = true) :
    ∃ msg, add_priority_playlist s now play_datetime directory play_date play_time pl dur
      = (Except.error msg, s) := by
  by_cases hlt : dtLt play_datetime now = true
  · refine ⟨"Date and time must be in the future", ?_⟩
    simp [add_priority_playlist, hlt]
  · rw [Bool.not_eq_true] at hlt
    refine ⟨"A task with ID " ++ task_id_of directory play_date play_time ++ " already exists", ?_⟩
    simp [add_priority_playlist, hlt, hdup]

/-- C5 (amended). For every task id present in the pending-task map,
`_cleanup_priority_task` cancels that task's trigger job, removes the task
record, resets `is_priority_playing`, `current_priority_task` and
`priority_end_time`, then refreshes the ordinary playlist and resumes
playback — but it leaves `is_loaded` exactly as it was: the `is_loaded`
reset the claim demands happens only in the monitor callback of
`_schedule_playlist_check`, after this function returns, not in cleanup
itself. -/
theorem cleanup_removes_task (s : SMState) (task_id : String) (t : TaskRecord)
    (hmem : s.priority_tasks.lookup task_id = some t) :
    ((cleanup_priority_task s task_id).1).priority_tasks.lookup task_id = none
    ∧ ((cleanup_priority_task s task_id).1).is_priority_playing = false
    ∧ ((cleanup_priority_task s task_id).1).current_priority_task = none
    ∧ ((cleanup_priority_task s task_id).1).priority_end_time = none
    ∧ ((cleanup_priority_task s task_id).1).is_loaded = s.is_loaded
    ∧ (cleanup_priority_task s task_id).2
        = [Effect.cancelJob t.jobId, Effect.updatePlaylist, Effect.playSong] := by
  simp [cleanup_priority_task, hmem, lookup_filter_self]

/-- C6. Cleanup is idempotent: for every task id absent from the
pending-task map, `_cleanup_priority_task` raises nothing (it is total),
returns the state unchanged, and issues no collaborator call (no playlist
refresh, no playback resume); consequently invoking cleanup twice for the
same task id behaves like invoking it once — the second invocation is
always a no-op. -/
theorem cleanup_idempotent (s : SMState) (task_id : String) :
    (s.priority_tasks.lookup task_id = none → cleanup_priority_task s task_id = (s, []))
    ∧ cleanup_priority_task (cleanup_priority_task s task_id).1 task_id
        = ((cleanup_priority_task s task_id).1, []) := by
  have base : ∀ s' : SMState, s'.priority_tasks.lookup task_id = none →
      cleanup_priority_task s' task_id = (s', []) := by
    intro s' h
    simp [cleanup_priority_task, h]
  refine ⟨base s, ?_⟩
  apply base
  cases hl : s.priority_tasks.lookup task_id with
  | none => rw [base s hl]; exact hl
  | some t =>
    simp only [cleanup_priority_task, hl]
    exact lookup_filter_self _ _

/-- C10. `GET /block/list` answers HTTP 400 exactly when the stored block
list is empty, and returns the list as JSON exactly when at least one block
is stored. -/
theorem list_blocks_iff_nonempty (blocks : List Block) :
    (list_blocks blocks = Except.error 400 ↔ blocks = [])
    ∧ (list_blocks blocks = Except.ok blocks ↔ blocks ≠ []) := by
  cases blocks <;> simp [list_blocks]

/-- C9. For every failure of the persisted-blocks read, `get_blocks`
returns the empty list and `is_blocked` returns false at every instant: a
storage failure fails open and never suppresses playback, and — both
embedded operations being total on the error outcome — no read error
propagates to their callers. -/
theorem read_failure_fails_open (e : String) (today : String) (h m : Nat) :
    get_blocks (Except.error e) = [] ∧ is_blocked_of_read (Except.error e) today h m = false :=
  ⟨rfl, rfl⟩

/-- Normal form of `_add_block_to_schedule` on a block whose two time
fields `strptime`-parse: a start job when the start instant is future and
`at()` accepts the start string, then an end job when the start registration
did not raise, the end instant is future and `at()` accepts the end
string. -/
theorem add_block_to_schedule_eq (now_sec : Nat) (b : Block) (hs ms he me : Nat)
    (hp : parseHM b.start_time = some (hs, ms)) (hpe : parseHM b.end_time = some (he, me)) :
    add_block_to_schedule now_sec b =
      (if now_sec < 60 * (60 * hs + ms) ∧ atDailyAccepts b.start_time = true
        then [⟨some "block", b.start_time, JobKind.startBlock⟩] else [])
      ++ (if (now_sec < 60 * (60 * hs + ms) → atDailyAccepts b.start_time = true)
            ∧ now_sec < 60 * (60 * he + me) ∧ atDailyAccepts b.end_time = true
        then [⟨some "block", b.end_time, JobKind.endBlock⟩] else []) := by
  rw [add_block_to_schedule, hp, hpe]
  by_cases hcs : now_sec < 60 * (60 * hs + ms) <;>
    by_cases hats : atDailyAccepts b.start_time = true <;>
      by_cases hce : now_sec < 60 * (60 * he + me) <;>
        by_cases hate : atDailyAccepts b.end_time = true <;>
          simp [hcs, hats, hce, hate]

/-- Every job `_add_block_to_schedule` registers carries the `"block"`
tag. -/
theorem add_block_tag (now_sec : Nat) (b : Block) :
    ∀ j ∈ add_block_to_schedule now_sec b, j.tag = some "block" := by
  intro j hj
  rcases hps : parseHM b.start_time with _ | ⟨hs, ms⟩
  · rw [add_block_to_schedule, hps] at hj
    simp at hj
  · rcases hpe : parseHM b.end_time with _ | ⟨he, me⟩
    · rw [add_block_to_schedule, hps, hpe] at hj
      simp at hj
    · rw [add_block_to_schedule_eq now_sec b hs ms he me hps hpe] at hj
      rw [List.mem_append] at hj
      rcases hj with hj | hj <;> split_ifs at hj <;> simp_all

/-- Shape of the jobs `_add_block_to_schedule` registers: a start job for a
still-future start time or an end job for a still-future end time, in each
case with the time field parsed and accepted by `at()`'s daily-job
validation. -/
theorem mem_add_block_to_schedule (now_sec : Nat) (b : Block) (j : Job)
    (hj : j ∈ add_block_to_schedule now_sec b) :
    (∃ hs ms, parseHM b.start_time = some (hs, ms) ∧ now_sec < 60 * (60 * hs + ms)
      ∧ atDailyAccepts b.start_time = true
      ∧ j = ⟨some "block", b.start_time, JobKind.startBlock⟩)
    ∨ (∃ he me, parseHM b.end_time = some (he, me) ∧ now_sec < 60 * (60 * he + me)
      ∧ atDailyAccepts b.end_time = true
      ∧ j = ⟨some "block", b.end_time, JobKind.endBlock⟩) := by
  rcases hps : parseHM b.start_time with _ | ⟨hs, ms⟩
  · rw [add_block_to_schedule, hps] at hj
    simp at hj
  · rcases hpe : parseHM b.end_time with _ | ⟨he, me⟩
    · rw [add_block_to_schedule, hps, hpe] at hj
      simp at hj
    · rw [add_block_to_schedule_eq now_sec b hs ms he me hps hpe] at hj
      rw [List.mem_append] at hj
      rcases hj with hj | hj <;> split_ifs at hj <;> simp_all
      · rename_i hcond
        exact ⟨hs, ms, ⟨rfl, rfl⟩, hcond.1⟩
      · rename_i hcond
        exact ⟨he, me, ⟨rfl, rfl⟩, hcond.2.1⟩

/-- The start job of a block with parseable times and an `at()`-accepted
start string is registered exactly when the block's start instant is still
in the future. -/
theorem start_mem_add_block (now_sec : Nat) (b : Block) (hs ms he me : Nat)
    (hp : parseHM b.start_time = some (hs, ms)) (hpe : parseHM b.end_time = some (he, me))
    (hat : atDailyAccepts b.start_time = true) :
    (⟨some "block", b.start_time, JobKind.startBlock⟩ : Job) ∈ add_block_to_schedule now_sec b ↔
      now_sec < 60 * (60 * hs + ms) := by
  constructor
  · intro hj
    rcases mem_add_block_to_schedule now_sec b _ hj with
      ⟨hs2, ms2, hp2, hc2, _, he2⟩ | ⟨_, _, _, _, _, hsh⟩
    · rw [hp] at hp2
      cases hp2
      exact hc2
    · simp at hsh
  · intro hc
    rw [add_block_to_schedule_eq now_sec b hs ms he me hp hpe, List.mem_append]
    refine Or.inl ?_
    simp [hc, hat]

/-- The end job of a block with parseable times, both of whose time strings
`at()` accepts, is registered exactly when the block's end instant is still
in the future. -/
theorem end_mem_add_block (now_sec : Nat) (b : Block) (hs ms he me : Nat)
    (hp : parseHM b.start_time = some (hs, ms)) (hpe : parseHM b.end_time = some (he, me))
    (hats : atDailyAccepts b.start_time = true) (hate : atDailyAccepts b.end_time = true) :
    (⟨some "block", b.end_time, JobKind.endBlock⟩ : Job) ∈ add_block_to_schedule now_sec b ↔
      now_sec < 60 * (60 * he + me) := by
  constructor
  · intro hj
    rcases mem_add_block_to_schedule now_sec b _ hj with
      ⟨_, _, _, _, _, hsh⟩ | ⟨he2, me2, hp2, hc2, _, hj2⟩
    · simp at hsh
    · rw [hpe] at hp2
      cases hp2
      exact hc2
  · intro hc
    rw [add_block_to_schedule_eq now_sec b hs ms he me hp hpe, List.mem_append]
    refine Or.inr ?_
    simp [hc, hats, hate]

/-- C8 (amended). Every run of `_schedule_daily_blocks` (at process start
and at the 00:01 daily trigger) first removes every previously registered
`"block"`-tagged job while passing other jobs through untouched; the
block-tagged jobs afterwards are exactly the ones derived from the stored
blocks whose date equals today, and each of them is a start job at some
today-block's `start_time` or an end job at its `end_time` — blocks of
other dates register nothing. For a today-block whose two time fields parse
and pass the `schedule` library's daily `at()` validation, the start job is
registered if and only if the block's start instant is still strictly in
the future, and the end job if and only if its end instant is — not
unconditionally, which is where the claim as stated fails. When a time
field parses but fails the `at()` validation (e.g. `"7:05"`), the raised
`ScheduleValueError` aborts that block's registration: an invalid future
start time registers no job at all, and an invalid future end time leaves
only the start job. The start action pauses playback exactly when the
player is playing, and the end action resumes playback exactly when no
priority task holds authority. -/
theorem schedule_daily_blocks_spec (today : String) (now_sec : Nat)
    (blocks : List Block) (jobs : List Job) :
    ((schedule_daily_blocks today now_sec blocks jobs).filter
        (fun j => j.tag != some "block") = jobs.filter (fun j => j.tag != some "block"))
    ∧ ((schedule_daily_blocks today now_sec blocks jobs).filter
        (fun j => j.tag == some "block")
        = (blocks.filter fun b => b.date == today).flatMap (add_block_to_schedule now_sec))
    ∧ (∀ j ∈ schedule_daily_blocks today now_sec blocks jobs, j.tag = some "block" →
        ∃ b ∈ blocks, b.date = today ∧
          ((j.kind = JobKind.startBlock ∧ j.at_time = b.start_time)
            ∨ (j.kind = JobKind.endBlock ∧ j.at_time = b.end_time)))
    ∧ (∀ b ∈ blocks, b.date = today → ∀ hs ms he me,
        parseHM b.start_time = some (hs, ms) → parseHM b.end_time = some (he, me) →
        atDailyAccepts b.start_time = true →
        ((⟨some "block", b.start_time, JobKind.startBlock⟩ : Job)
            ∈ schedule_daily_blocks today now_sec blocks jobs ↔
          now_sec < 60 * (60 * hs + ms)))
    ∧ (∀ b ∈ blocks, b.date = today → ∀ hs ms he me,
        parseHM b.start_time = some (hs, ms) → parseHM b.end_time = some (he, me) →
        atDailyAccepts b.start_time = true → atDailyAccepts b.end_time = true →
        ((⟨some "block", b.end_time, JobKind.endBlock⟩ : Job)
            ∈ schedule_daily_blocks today now_sec blocks jobs ↔
          now_sec < 60 * (60 * he + me)))
    ∧ (∀ b : Block, ∀ hs ms he me,
        parseHM b.start_time = some (hs, ms) → parseHM b.end_time = some (he, me) →
        now_sec < 60 * (60 * hs + ms) → atDailyAccepts b.start_time = false →
        add_block_to_schedule now_sec b = [])
    ∧ (∀ b : Block, ∀ hs ms he me,
        parseHM b.start_time = some (hs, ms) → parseHM b.end_time = some (he, me) →
        now_sec < 60 * (60 * hs + ms) → atDailyAccepts b.start_time = true →
        now_sec < 60 * (60 * he + me) → atDailyAccepts b.end_time = false →
        add_block_to_schedule now_sec b = [⟨some "block", b.start_time, JobKind.startBlock⟩])
    ∧ start_block_period true = [PlayerCmd.pause]
    ∧ start_block_period false = []
    ∧ end_block_period false = [PlayerCmd.play]
    ∧ end_block_period true = [] := by
  have tagNew : ∀ j ∈ (blocks.filter fun b => b.date == today).flatMap
      (add_block_to_schedule now_sec), j.tag = some "block" := by
    intro j hj
    rw [List.mem_flatMap] at hj
    obtain ⟨b, _, hjb⟩ := hj
    exact add_block_tag now_sec b j hjb
  refine ⟨?_, ?_, ?_, ?_, ?_, ?_, ?_, rfl, rfl, rfl, rfl⟩
  · rw [schedule_daily_blocks, List.filter_append]
    have h1 : (jobs.filter fun j => j.tag != some "block").filter
        (fun j => j.tag != some "block") = jobs.filter fun j => j.tag != some "block" := by
      rw [List.filter_filter]
      simp only [Bool.and_self]
    have h2 : ((blocks.filter fun b => b.date == today).flatMap
          (add_block_to_schedule now_sec)).filter (fun j => j.tag != some "block") = [] := by
      rw [List.filter_eq_nil_iff]
      intro j hj
      simp [tagNew j hj]
    rw [h1, h2, List.append_nil]
  · rw [schedule_daily_blocks, List.filter_append]
    have h1 : (jobs.filter fun j => j.tag != some "block").filter
        (fun j => j.tag == some "block") = [] := by
      rw [List.filter_filter]
      simp [bne]
    have h2 : ((blocks.filter fun b => b.date == today).flatMap
          (add_block_to_schedule now_sec)).filter (fun j => j.tag == some "block")
        = (blocks.filter fun b => b.date == today).flatMap (add_block_to_schedule now_sec) := by
      rw [List.filter_eq_self]
      intro j hj
      simp [tagNew j hj]
    rw [h1, h2, List.nil_append]
  · intro j hj htag
    rw [schedule_daily_blocks, List.mem_append] at hj
    rcases hj with hj | hj
    · have hp := List.of_mem_filter hj
      simp [htag] at hp
    · rw [List.mem_flatMap] at hj
      obtain ⟨b, hbmem, hjb⟩ := hj
      have hbf := List.mem_filter.mp hbmem
      rcases mem_add_block_to_schedule now_sec b j hjb with
        ⟨hs, ms, _, _, _, rfl⟩ | ⟨he, me, _, _, _, rfl⟩
      · exact ⟨b, hbf.1, by simpa using hbf.2, Or.inl ⟨rfl, rfl⟩⟩
      · exact ⟨b, hbf.1, by simpa using hbf.2, Or.inr ⟨rfl, rfl⟩⟩
  · intro b hb hdate hs ms he me hp hpe hat
    rw [schedule_daily_blocks, List.mem_append]
    constructor
    · rintro (hj | hj)
      · have hq := List.of_mem_filter hj
        simp at hq
      · rw [List.mem_flatMap] at hj
        obtain ⟨b2, hb2, hjb2⟩ := hj
        rcases mem_add_block_to_schedule now_sec b2 _ hjb2 with
          ⟨hs2, ms2, hp2, hc2, _, hshape⟩ | ⟨he2, me2, hp2, hc2, _, hshape⟩
        · injection hshape with e1 e2 e3
          rw [← e2] at hp2
          rw [hp] at hp2
          cases hp2
          exact hc2
        · simp at hshape
    · intro hc
      refine Or.inr ?_
      rw [List.mem_flatMap]
      refine ⟨b, List.mem_filter.mpr ⟨hb, by simp [hdate]⟩, ?_⟩
      exact (start_mem_add_block now_sec b hs ms he me hp hpe hat).mpr hc
  · intro b hb hdate hs ms he me hp hpe hats hate
    rw [schedule_daily_blocks, List.mem_append]
    constructor
    · rintro (hj | hj)
      · have hq := List.of_mem_filter hj
        simp at hq
      · rw [List.mem_flatMap] at hj
        obtain ⟨b2, hb2, hjb2⟩ := hj
        rcases mem_add_block_to_schedule now_sec b2 _ hjb2 with
          ⟨hs2, ms2, hp2, hc2, _, hshape⟩ | ⟨he2, me2, hp2, hc2, _, hshape⟩
        · simp at hshape
        · injection hshape with e1 e2 e3
          rw [← e2] at hp2
          rw [hpe] at hp2
          cases hp2
          exact hc2
    · intro hc
      refine Or.inr ?_
      rw [List.mem_flatMap]
      refine ⟨b, List.mem_filter.mpr ⟨hb, by simp [hdate]⟩, ?_⟩
      exact (end_mem_add_block now_sec b hs ms he me hp hpe hats hate).mpr hc
  · intro b hs ms he me hp hpe hc hat
    rw [add_block_to_schedule_eq now_sec b hs ms he me hp hpe]
    simp [hc, hat]
  · intro b hs ms he me hp hpe hcs hats hce hate
    rw [add_block_to_schedule_eq now_sec b hs ms he me hp hpe]
    simp [hcs, hats, hce, hate]

/-- C3 (counterexample). A play datetime exactly equal to the current time
is not strictly in the future, yet `add_priority_playlist` accepts it and
returns the task id, because the code raises only for
`play_datetime < datetime.now()`. -/
theorem add_priority_accepts_now :
    dtLt ⟨738000, 36000⟩ ⟨738000, 36000⟩ = false
    ∧ (add_priority_playlist initState ⟨738000, 36000⟩ ⟨738000, 36000⟩
        "d" "2026-10-12" "10:00" "pl" 90).1
      = Except.ok (task_id_of "d" "2026-10-12" "10:00") := by
  decide

/-- C3 (witness). The amended validation behaviour at concrete inputs: a
past play datetime is rejected with the state unchanged; a future one whose
`play_time` `"7:05"` fails the `at()` validation is rejected with the state
unchanged; and a future one with a fresh id and the accepted `play_time`
`"10:00"` succeeds and appears in the snapshot. -/
theorem add_priority_validation_inst :
    (∃ msg, add_priority_playlist initState ⟨0, 60⟩ ⟨0, 0⟩ "d" "2026-10-12" "10:00" "pl" 90
        = (Except.error msg, initState))
    ∧ (∃ msg, add_priority_playlist initState ⟨0, 0⟩ ⟨0, 60⟩ "d" "2026-10-12" "7:05" "pl" 90
        = (Except.error msg, initState))
    ∧ (∃ s', add_priority_playlist initState ⟨0, 0⟩ ⟨0, 60⟩ "d" "2026-10-12" "10:00" "pl" 90
        = (Except.ok (task_id_of "d" "2026-10-12" "10:00"), s')
      ∧ task_id_of "d" "2026-10-12" "10:00"
          ∈ (get_priority_tasks s').map TaskView.task_id) :=
  ⟨(add_priority_validation initState ⟨0, 60⟩ ⟨0, 0⟩ "d" "2026-10-12" "10:00" "pl" 90).1
      (by decide),
    (add_priority_validation initState ⟨0, 0⟩ ⟨0, 60⟩ "d" "2026-10-12" "7:05" "pl" 90).2.1
      (by decide) (by decide) (by decide),
    (add_priority_validation initState ⟨0, 0⟩ ⟨0, 60⟩ "d" "2026-10-12" "10:00" "pl" 90).2.2
      (by decide) (by decide) (by decide)⟩

/-- C4 (witness). Scheduling the same `(directory, play_date, play_time)`
twice: the second call fails and leaves the state produced by the first
call unchanged. -/
theorem add_priority_collision_error_inst :
    ∃ msg,
      add_priority_playlist
        (add_priority_playlist initState ⟨0, 0⟩ ⟨0, 60⟩ "d" "2026-10-12" "10:00" "pl" 90).2
        ⟨0, 30⟩ ⟨0, 60⟩ "d" "2026-10-12" "10:00" "pl" 90
      = (Except.error msg,
        (add_priority_playlist initState ⟨0, 0⟩ ⟨0, 60⟩ "d" "2026-10-12" "10:00" "pl" 90).2) :=
  add_priority_collision_error _ _ _ _ _ _ _ _ (by decide)

/-- C5 (counterexample). A state with pending task `"t1"` and
`is_loaded = true`: after `_cleanup_priority_task` runs for `"t1"`,
`is_loaded` is still true, contradicting the claim that cleanup resets it
to false. -/
theorem cleanup_leaves_is_loaded :
    sampleLoadedState.priority_tasks.lookup "t1" ≠ none
    ∧ sampleLoadedState.is_loaded = true
    ∧ ((cleanup_priority_task sampleLoadedState "t1").1).is_loaded = true := by
  decide

/-- C5 (witness). The amended cleanup behaviour at the concrete loaded
state: record removed, flags reset, `is_loaded` untouched, and the
cancel/refresh/resume effect trace issued. -/
theorem cleanup_removes_task_inst :
    ((cleanup_priority_task sampleLoadedState "t1").1).priority_tasks.lookup "t1" = none
    ∧ ((cleanup_priority_task sampleLoadedState "t1").1).is_priority_playing = false
    ∧ ((cleanup_priority_task sampleLoadedState "t1").1).current_priority_task = none
    ∧ ((cleanup_priority_task sampleLoadedState "t1").1).priority_end_time = none
    ∧ ((cleanup_priority_task sampleLoadedState "t1").1).is_loaded = sampleLoadedState.is_loaded
    ∧ (cleanup_priority_task sampleLoadedState "t1").2
        = [Effect.cancelJob 7, Effect.updatePlaylist, Effect.playSong] :=
  cleanup_removes_task sampleLoadedState "t1" ⟨7, "pl", ⟨0, 0⟩, "d", 90⟩ (by decide)

/-- C6 (witness). Cleanup of an absent task id on the initial state is a
no-op, and a second cleanup after the first is also a no-op. -/
theorem cleanup_idempotent_inst :
    cleanup_priority_task initState "x" = (initState, [])
    ∧ cleanup_priority_task (cleanup_priority_task initState "x").1 "x"
        = ((cleanup_priority_task initState "x").1, []) :=
  ⟨(cleanup_idempotent initState "x").1 (by decide), (cleanup_idempotent initState "x").2⟩

/-- C7 (code bug evaluation). With the command whitelist configured,
`POST /command` with the unknown command `"stop"` is answered with the
success status and no player command is executed — the code checks only
Python truthiness (`if command and self.command_handler:`) where a
membership test (`command in self.command_handler`) was clearly intended,
as the unused whitelist and the `"Invalid command"` 400 branch show. Known
commands yield success and dispatch; only a missing/empty `ToDO` yields
400. The claim's required 400 for unknown commands never happens. -/
theorem handle_command_accepts_unknown :
    (handle_command (some "stop") ["play", "pause", "next"]).1.status = 200
    ∧ (handle_command (some "stop") ["play", "pause", "next"]).2 = []
    ∧ (handle_command (some "play") ["play", "pause", "next"]).1.status = 200
    ∧ (handle_command (some "play") ["play", "pause", "next"]).2 = [PlayerCmd.play]
    ∧ (handle_command (some "pause") ["play", "pause", "next"]).1.status = 200
    ∧ (handle_command (some "next") ["play", "pause", "next"]).1.status = 200
    ∧ (handle_command none ["play", "pause", "next"]).1.status = 400 := by
  decide

/-- C8 (counterexample). At 10:00:00 (second 36000 of the day), running
the daily block derivation for a stored block of today with interval
`[08:00, 09:00]` registers no job at all — not the two one-off jobs the
claim requires — because both the start and the end instant already lie in
the past. -/
theorem daily_blocks_skip_past_start :
    schedule_daily_blocks "2026-10-12" 36000 [⟨"2026-10-12", "08:00", "09:00"⟩] [] = [] := by
  decide

/-- C8 (witness). The amended registration condition at a concrete input:
at midnight, the start job of today's `[09:00, 10:00]` block — whose time
strings `at()` accepts — is registered because 09:00 is still in the
future. -/
theorem schedule_daily_blocks_spec_inst :
    ((⟨some "block", "09:00", JobKind.startBlock⟩ : Job)
        ∈ schedule_daily_blocks "2026-10-12" 0 [⟨"2026-10-12", "09:00", "10:00"⟩] [] ↔
      0 < 60 * (60 * 9 + 0)) :=
  (schedule_daily_blocks_spec "2026-10-12" 0 [⟨"2026-10-12", "09:00", "10:00"⟩] []).2.2.2.1
    ⟨"2026-10-12", "09:00", "10:00"⟩ (by decide) rfl 9 0 10 0 (by decide) (by decide) (by decide)

end AIMP
